import Mathlib

/-!
Shallow embedding of the ShareGo single-peer WebSocket relay
(`src/apps/desktop-tauri/src-tauri/src/ws_server.rs` and
`src/apps/desktop-tauri/src-tauri/src/commands.rs`).

Bytes are modelled as `Nat` values below 256, strings as lists of ASCII
codes where character-level structure matters (socket-address parsing,
base64) and as Lean `String` where only equality matters (error messages).
Externally-determined outcomes (bind attempts, the local-IP lookup, the
result of a transport write) are supplied as oracles, and side effects
are made observable as explicit action/event traces.
-/

namespace ShareGo

/-- max allowed message size in bytes (64 KB), matching the JS transport
limit (`MAX_MESSAGE_SIZE` in ws_server.rs). -/
def MAX_MESSAGE_SIZE : Nat := 65536

/-- Model of a WebSocket write half (`WsSink`): an identity plus the
outcome of the next transport write (`none` = write succeeds, `some e` =
write fails with the underlying error text `e`). -/
structure WsSink where
  id : Nat
  sendErr : Option String
deriving DecidableEq, Repr

/-- The mutable slots of `WsServerState` (ws_server.rs lines 30-36).
The `op_lock` field guards sequencing only and carries no data, so it has
no counterpart in the sequential model: lifecycle operations are modelled
as atomic state transformers, which is exactly what holding the lock for
the whole call buys. -/
structure WsServerState where
  sink : Option WsSink
  shutdown_tx : Option Nat
  listener_handle : Option Nat
deriving DecidableEq, Repr

/-- `WsServerState::new()`: all three slots empty. -/
def WsServerState.new : WsServerState :=
  { sink := none, shutdown_tx := none, listener_handle := none }

/-- Observable side effects of the lifecycle / send operations. -/
inductive Action where
  | sendShutdown (chan : Nat)
  | closeSink (sink : Nat)
  | joinHandle (handle : Nat)
  | writeBinary (sink : Nat) (data : List Nat)
deriving DecidableEq, Repr

/-- `WsServerState::stop_inner` (ws_server.rs lines 183-193): take and
signal the shutdown sender, take and close the stored write half, take
and await the listener task handle, in that order. Returns the new state
and the trace of performed effects. -/
def WsServerState.stop_inner (st : WsServerState) : WsServerState × List Action :=
  let a1 : List Action :=
    match st.shutdown_tx with
    | some tx => [Action.sendShutdown tx]
    | none => []
  let a2 : List Action :=
    match st.sink with
    | some s => [Action.closeSink s.id]
    | none => []
  let a3 : List Action :=
    match st.listener_handle with
    | some h => [Action.joinHandle h]
    | none => []
  ({ sink := none, shutdown_tx := none, listener_handle := none },
   a1 ++ a2 ++ a3)

/-- Spec-side description of the retirement trace: one shutdown
notification if a sender is stored, then one close if the slot holds a
write half, then one join if a task handle is stored. -/
def retireActions (st : WsServerState) : List Action :=
  (st.shutdown_tx.map Action.sendShutdown).toList ++
  (st.sink.map (fun s => Action.closeSink s.id)).toList ++
  (st.listener_handle.map Action.joinHandle).toList

/-- `WsServerState::stop` (ws_server.rs lines 177-180): acquire the op
lock, then `stop_inner`. -/
def WsServerState.stop (st : WsServerState) : WsServerState × List Action :=
  st.stop_inner

/-- `stop_ws_server` (commands.rs lines 15-21): calls `stop` and returns
`Ok(())` unconditionally. -/
def stop_ws_server (st : WsServerState) :
    Except String Unit × WsServerState × List Action :=
  let (st2, acts) := st.stop
  (Except.ok (), st2, acts)

/-- `WsServerState::send` (ws_server.rs lines 166-175): if the sink slot
is occupied, write a binary frame through it, surfacing a transport error
as `send failed: {e}`; otherwise fail with `no peer connected`. The slot
itself is never mutated (`as_mut`, not `take`). -/
def WsServerState.send (st : WsServerState) (data : List Nat) :
    Except String Unit × WsServerState × List Action :=
  match st.sink with
  | some s =>
      (match s.sendErr with
       | none => Except.ok ()
       | some e => Except.error ("send failed: " ++ e),
       st, [Action.writeBinary s.id data])
  | none => (Except.error "no peer connected", st, [])

/-! ### Base64 (the `base64` crate's `general_purpose::STANDARD` engine)

The reader re-encodes inbound payload bytes with standard base64 before
emitting them to the host (ws_server.rs lines 112-120, 126-130); the RPC
layer's `ws_send` decodes standard base64 back to bytes (commands.rs
lines 28-30). Characters are modelled by their ASCII codes. -/

/-- Standard base64 alphabet: sextet value (< 64) to ASCII code. -/
def b64Char (n : Nat) : Nat :=
  if n < 26 then 65 + n
  else if n < 52 then 97 + (n - 26)
  else if n < 62 then 48 + (n - 52)
  else if n = 62 then 43
  else 47

/-- Inverse alphabet lookup: ASCII code to sextet value, `none` for a
character outside the standard alphabet (including the pad char 61). -/
def b64CharDec (c : Nat) : Option Nat :=
  if 65 ≤ c ∧ c ≤ 90 then some (c - 65)
  else if 97 ≤ c ∧ c ≤ 122 then some (c - 97 + 26)
  else if 48 ≤ c ∧ c ≤ 57 then some (c - 48 + 52)
  else if c = 43 then some 62
  else if c = 47 then some 63
  else none

/-- Standard base64 encoding with padding: bytes to ASCII codes, three
bytes per four output characters, pad char 61. -/
def b64encode : List Nat → List Nat
  | [] => []
  | [b0] => [b64Char (b0 / 4), b64Char (b0 % 4 * 16), 61, 61]
  | [b0, b1] =>
      [b64Char (b0 / 4), b64Char (b0 % 4 * 16 + b1 / 16),
       b64Char (b1 % 16 * 4), 61]
  | b0 :: b1 :: b2 :: rest =>
      b64Char (b0 / 4) :: b64Char (b0 % 4 * 16 + b1 / 16) ::
      b64Char (b1 % 16 * 4 + b2 / 64) :: b64Char (b2 % 64) ::
      b64encode rest

/-- Standard base64 decoding: requires canonical padding (length a
multiple of four, pad chars only in the final chunk) and zero trailing
bits, matching the `STANDARD` engine's strict defaults; returns `none`
on invalid input. -/
def b64decode : List Nat → Option (List Nat)
  | [] => some []
  | c0 :: c1 :: c2 :: c3 :: rest =>
      match b64CharDec c0, b64CharDec c1 with
      | some v0, some v1 =>
          if c2 = 61 then
            if c3 = 61 ∧ rest = [] then
              if v1 % 16 = 0 then some [v0 * 4 + v1 / 16] else none
            else none
          else
            match b64CharDec c2 with
            | some v2 =>
                if c3 = 61 then
                  if rest = [] then
                    if v2 % 4 = 0 then
                      some [v0 * 4 + v1 / 16, v1 % 16 * 16 + v2 / 4]
                    else none
                  else none
                else
                  match b64CharDec c3, b64decode rest with
                  | some v3, some bs =>
                      some ((v0 * 4 + v1 / 16) :: (v1 % 16 * 16 + v2 / 4) ::
                            (v2 % 4 * 64 + v3) :: bs)
                  | _, _ => none
            | none => none
      | _, _ => none
  | _ => none

/-- `ws_send` (commands.rs lines 24-32): decode the transport-encoded
string to raw bytes (error `invalid base64: ...` on failure), then call
the core's `send`. -/
def ws_send (st : WsServerState) (data : List Nat) :
    Except String Unit × WsServerState × List Action :=
  match b64decode data with
  | none => (Except.error "invalid base64: decode error", st, [])
  | some bytes => st.send bytes

/-! ### Acceptor loop (ws_server.rs lines 80-157) -/

/-- State local to one spawned acceptor task: the `has_peer` atomic flag
plus its view of the shared sink slot. -/
structure AcceptorState where
  has_peer : Bool
  sink : Option WsSink
deriving DecidableEq, Repr

/-- One wake-up of the acceptor's select loop: a TCP connection was
accepted (with the oracle outcome of the would-be websocket handshake:
`some w` = upgrade succeeds producing write half `w`, `none` = upgrade
fails), the accept itself returned an error, or the shutdown channel
fired. -/
inductive AcceptorEvent where
  | accepted (handshake : Option WsSink)
  | acceptError
  | shutdown
deriving DecidableEq, Repr

/-- Observable steps taken by the acceptor on one iteration. -/
inductive AcceptorAction where
  | dropStream
  | handshakeAttempt
  | emitConnection
  | spawnReader (sink : Nat)
deriving DecidableEq, Repr

/-- One iteration of the acceptor select loop. Returns the new acceptor
state, the actions taken, and whether the loop continues. While
`has_peer` is set, a newly accepted stream is dropped immediately and no
handshake is attempted; otherwise the handshake is attempted, and on
success the flag is set, the write half is stored in the slot, a
`ws-connection` event is emitted and a reader task is spawned. An accept
error or a shutdown notification breaks the loop. -/
def acceptorStep (st : AcceptorState) (ev : AcceptorEvent) :
    AcceptorState × List AcceptorAction × Bool :=
  match ev with
  | AcceptorEvent.accepted handshake =>
      if st.has_peer then
        (st, [AcceptorAction.dropStream], true)
      else
        match handshake with
        | none => (st, [AcceptorAction.handshakeAttempt], true)
        | some w =>
            ({ has_peer := true, sink := some w },
             [AcceptorAction.handshakeAttempt, AcceptorAction.emitConnection,
              AcceptorAction.spawnReader w.id],
             true)
  | AcceptorEvent.acceptError => (st, [], false)
  | AcceptorEvent.shutdown => (st, [], false)

/-! ### Reader loop (ws_server.rs lines 105-148) -/

/-- One inbound item from the websocket read half: a frame (binary /
text / close / other control) or a read error. Text payloads are carried
as their UTF-8 bytes, so `.length` is the Rust `len()` byte length. -/
inductive Frame where
  | binary (data : List Nat)
  | text (bytes : List Nat)
  | close
  | other
  | readError
deriving DecidableEq, Repr

/-- Events the server emits to the host application. -/
inductive HostEvent where
  | wsConnection
  | wsMessage (data : List Nat)
  | wsClose
deriving DecidableEq, Repr

/-- Processing of a single inbound frame by the reader loop body:
the host events emitted and whether the loop continues. Binary and text
payloads within `MAX_MESSAGE_SIZE` are forwarded base64-encoded as one
`ws-message` event; oversized ones are silently dropped; a close frame
or read error breaks the loop; other frame kinds are ignored. -/
def readerFrameStep (f : Frame) : List HostEvent × Bool :=
  match f with
  | Frame.binary data =>
      (if data.length > MAX_MESSAGE_SIZE then []
       else [HostEvent.wsMessage (b64encode data)], true)
  | Frame.text bytes =>
      (if bytes.length > MAX_MESSAGE_SIZE then []
       else [HostEvent.wsMessage (b64encode bytes)], true)
  | Frame.close => ([], false)
  | Frame.readError => ([], false)
  | Frame.other => ([], true)

/-- The reader loop over the stream of inbound items (an exhausted
stream, `[]`, also ends the loop): concatenated host events of the
processed prefix. -/
def readerLoop : List Frame → List HostEvent
  | [] => []
  | f :: rest =>
      let (evs, cont) := readerFrameStep f
      if cont then evs ++ readerLoop rest else evs

/-- The cleanup the reader task runs after its loop ends (ws_server.rs
lines 145-147): clear the `has_peer` flag, set the shared sink slot to
`None` (unconditionally), and emit `ws-close`. Takes the flag and slot
contents at cleanup time; `myId` is this connection's write-half id
(unused by the code). -/
def readerCleanup (myId : Nat) (hasPeer : Bool) (slot : Option WsSink) :
    Bool × Option WsSink × List HostEvent :=
  (false, none, [HostEvent.wsClose])

/-- Modelled from the spec (for comparison with `readerCleanup`): clear
the flag, clear the slot only if it still references this connection's
write half, and emit the close notification. -/
def readerCleanupClaim (myId : Nat) (hasPeer : Bool) (slot : Option WsSink) :
    Bool × Option WsSink × List HostEvent :=
  (false,
   match slot with
   | some s => if s.id = myId then none else some s
   | none => none,
   [HostEvent.wsClose])

/-- A whole reader task run: loop over the inbound items, then the
cleanup, which executes exactly once. Returns all emitted host events
and the final flag / slot values. -/
def readerRun (myId : Nat) (frames : List Frame) (hasPeer : Bool)
    (slot : Option WsSink) : List HostEvent × Bool × Option WsSink :=
  let (flag, slot2, closeEvs) := readerCleanup myId hasPeer slot
  (readerLoop frames ++ closeEvs, flag, slot2)

/-! ### Socket address formatting and parsing

`bind_with_retry` parses `format!("0.0.0.0:{}", port)` as a
`SocketAddr` (ws_server.rs lines 202-204). The address string is
modelled as a list of ASCII codes, and the std library's IPv4 socket
address parser as a sequential parse of dotted quad, colon, port, end
of input. -/

/-- Value of a most-significant-first digit list (digit values, not
ASCII), accumulated left to right as the std parser does. -/
def digitsVal : List Nat → Nat → Nat
  | [], acc => acc
  | d :: rest, acc => digitsVal rest (acc * 10 + d)

/-- Little-endian decimal digits of `n` (empty for 0), with explicit
fuel so the recursion is structural; `natDigitsRev` supplies fuel `n`,
which always suffices. -/
def natDigitsRevAux : Nat → Nat → List Nat
  | 0, _ => []
  | fuel + 1, n => if n = 0 then [] else n % 10 :: natDigitsRevAux fuel (n / 10)

/-- Little-endian decimal digits of `n` (empty for 0). -/
def natDigitsRev (n : Nat) : List Nat :=
  natDigitsRevAux n n

/-- ASCII decimal representation of `n` as produced by Rust formatting:
most-significant digit first, `"0"` for zero, no leading zeros. -/
def natAscii (n : Nat) : List Nat :=
  if n = 0 then [48] else (natDigitsRev n).reverse.map (fun d => 48 + d)

/-- The ASCII codes of `format!("0.0.0.0:{}", port)`. -/
def formatAddr (port : Nat) : List Nat :=
  [48, 46, 48, 46, 48, 46, 48, 58] ++ natAscii port

/-- Longest digit prefix of the input, and the unconsumed remainder. -/
def takeDigits : List Nat → List Nat × List Nat
  | [] => ([], [])
  | c :: rest =>
      if 48 ≤ c ∧ c ≤ 57 then
        let (ds, r) := takeDigits rest
        (c :: ds, r)
      else ([], c :: rest)

/-- One dotted-quad octet as accepted by the std parser: one to three
digits, no leading zero unless the octet is exactly `0`, value at most
255. Returns the value and the unconsumed input. -/
def parseOctet (cs : List Nat) : Option (Nat × List Nat) :=
  let (ds, rest) := takeDigits cs
  if ds = [] then none
  else if ds.length > 1 ∧ ds.head? = some 48 then none
  else if ds.length > 3 then none
  else
    let v := digitsVal (ds.map (fun c => c - 48)) 0
    if v ≤ 255 then some (v, rest) else none

/-- Consume one expected character. -/
def expectChar (c : Nat) : List Nat → Option (List Nat)
  | [] => none
  | x :: rest => if x = c then some rest else none

/-- The port component: a nonempty digit string consuming the whole
remainder, leading zeros allowed, value at most 65535 (the u16 parse
fails on overflow). -/
def parsePort (cs : List Nat) : Option Nat :=
  let (ds, rest) := takeDigits cs
  if ds = [] then none
  else if rest ≠ [] then none
  else
    let v := digitsVal (ds.map (fun c => c - 48)) 0
    if v ≤ 65535 then some v else none

/-- `"{a}.{b}.{c}.{d}:{port}".parse::<SocketAddr>()` restricted to the
IPv4 form. -/
def parseSocketAddrV4 (cs : List Nat) :
    Option ((Nat × Nat × Nat × Nat) × Nat) := do
  let (a, r1) ← parseOctet cs
  let r2 ← expectChar 46 r1
  let (b, r3) ← parseOctet r2
  let r4 ← expectChar 46 r3
  let (c, r5) ← parseOctet r4
  let r6 ← expectChar 46 r5
  let (d, r7) ← parseOctet r6
  let r8 ← expectChar 58 r7
  let p ← parsePort r8
  pure ((a, b, c, d), p)

/-! ### Listener acquisition (ws_server.rs lines 196-219) and start -/

/-- Observable steps of the bind retry loop. -/
inductive BindEvent where
  | sleep (ms : Nat)
  | bindAttempt (i : Nat)
deriving DecidableEq, Repr

/-- Whether a bind event is an actual bind attempt. -/
def BindEvent.isAttempt : BindEvent → Bool
  | BindEvent.bindAttempt _ => true
  | BindEvent.sleep _ => false

/-- The retry loop of `bind_with_retry` (lines 206-216): `attempt` is
the current index, `fuel` the remaining iterations of
`for attempt in 0..max_attempts`, `last_err` the error of the previous
failed attempt (initially the empty string). The OS-level outcome of
`try_bind` at each attempt index is the oracle `tryBind` (a successful
attempt yields the listener's id). Sleeps `delay_ms` before every
attempt except attempt 0, returns at the first success, and after the
loop returns the last error. -/
def bindLoop (tryBind : Nat → Except String Nat) (delay_ms : Nat)
    (last_err : String) (attempt : Nat) :
    Nat → Except String Nat × List BindEvent
  | 0 => (Except.error last_err, [])
  | fuel + 1 =>
      let pre : List BindEvent :=
        if attempt > 0 then [BindEvent.sleep delay_ms] else []
      match tryBind attempt with
      | Except.ok l => (Except.ok l, pre ++ [BindEvent.bindAttempt attempt])
      | Except.error e =>
          let (r, evs) := bindLoop tryBind delay_ms e (attempt + 1) fuel
          (r, pre ++ [BindEvent.bindAttempt attempt] ++ evs)

/-- `WsServerState::bind_with_retry` (lines 196-219): parse
`0.0.0.0:{port}` (surfacing `invalid address: ...` on failure), then run
the retry loop. -/
def bind_with_retry (tryBind : Nat → Except String Nat) (port : Nat)
    (max_attempts : Nat) (delay_ms : Nat) :
    Except String Nat × List BindEvent :=
  match parseSocketAddrV4 (formatAddr port) with
  | none => (Except.error "invalid address: parse error", [])
  | some _ => bindLoop tryBind delay_ms "" 0 max_attempts

/-- Number of actual bind attempts in a bind event trace. -/
def countAttempts : List BindEvent → Nat
  | [] => 0
  | BindEvent.bindAttempt _ :: rest => countAttempts rest + 1
  | BindEvent.sleep _ :: rest => countAttempts rest

/-- Spec-side description of the bind trace for `n` attempts starting
at index `start`: the attempts in order, each preceded by one sleep of
`delay_ms` except attempt 0. -/
def bindTraceFrom (delay_ms start n : Nat) : List BindEvent :=
  match n with
  | 0 => []
  | n + 1 =>
      (if start > 0 then [BindEvent.sleep delay_ms] else []) ++
      [BindEvent.bindAttempt start] ++ bindTraceFrom delay_ms (start + 1) n

/-- The environment-determined outcomes consumed by one `start` call:
the result of each OS bind attempt, of `listener.local_addr()` (its
port), and of `local_ip_address::local_ip()` (as a display string), plus
fresh identities for the shutdown channel and the spawned task. -/
structure StartOracle where
  tryBind : Nat → Except String Nat
  localAddrPort : Except String Nat
  localIp : Except String String
  chanId : Nat
  handleId : Nat

/-- `WsServerState::start` (ws_server.rs lines 48-164): under the op
lock, retire any previous instance via `stop_inner`, bind with 5
attempts at 200 ms spacing, resolve the local port and local IP (errors
propagate, the IP error prefixed `failed to get local ip: `), then store
a fresh shutdown sender, spawn the acceptor task and store its handle,
and return `{ip}:{port}`. Returns the result, the final state, the
retirement trace and the bind events. -/
def WsServerState.start (st : WsServerState) (o : StartOracle) (port : Nat) :
    Except String String × WsServerState × List Action × List BindEvent :=
  let st1 := st.stop_inner.1
  let retire := st.stop_inner.2
  let bevs := (bind_with_retry o.tryBind port 5 200).2
  match (bind_with_retry o.tryBind port 5 200).1 with
  | Except.error e => (Except.error e, st1, retire, bevs)
  | Except.ok _ =>
      match o.localAddrPort with
      | Except.error e => (Except.error e, st1, retire, bevs)
      | Except.ok lport =>
          match o.localIp with
          | Except.error e =>
              (Except.error ("failed to get local ip: " ++ e), st1, retire,
               bevs)
          | Except.ok ip =>
              (Except.ok (ip ++ ":" ++ Nat.repr lport),
               { sink := st1.sink, shutdown_tx := some o.chanId,
                 listener_handle := some o.handleId },
               retire, bevs)

end ShareGo

namespace ShareGo

/-- C1: The retirement sequence, executed by stop and by start's
pre-step (both via `stop_inner`), performs exactly the
shutdown-notification, sink-close and handle-join steps in this order,
each conditional on its slot being occupied, and leaves all three slots
`None`; the retirement trace of every `start` call is that same
sequence. -/
theorem C1_retirement_sequence (st : WsServerState) :
    st.stop_inner = (WsServerState.new, retireActions st) ∧
    st.stop = (WsServerState.new, retireActions st) ∧
    ∀ (o : StartOracle) (port : Nat),
      (st.start o port).2.2.1 = retireActions st := by
  have hsi : st.stop_inner = (WsServerState.new, retireActions st) := by
    cases h1 : st.shutdown_tx <;> cases h2 : st.sink <;>
      cases h3 : st.listener_handle <;>
      simp [WsServerState.stop_inner, retireActions, WsServerState.new,
        h1, h2, h3]
  refine ⟨hsi, hsi, fun o port => ?_⟩
  unfold WsServerState.start
  cases hb : (bind_with_retry o.tryBind port 5 200).1 with
  | error e => simp [hb, hsi]
  | ok l =>
      cases hla : o.localAddrPort with
      | error e => simp [hb, hla, hsi]
      | ok lport =>
          cases hli : o.localIp with
          | error e => simp [hb, hla, hli, hsi]
          | ok ip => simp [hb, hla, hli, hsi]

/-- C8: `stop` never fails (`stop_ws_server` returns `Ok(())` for every
state), and on an already-stopped server (all three slots empty) it is a
no-op: the state is unchanged and no effect is performed. -/
theorem C8_stop_never_fails (st : WsServerState) :
    (stop_ws_server st).1 = Except.ok () ∧
    (st.sink = none → st.shutdown_tx = none → st.listener_handle = none →
      stop_ws_server st = (Except.ok (), st, [])) := by
  refine ⟨rfl, fun h1 h2 h3 => ?_⟩
  cases st
  simp_all [stop_ws_server, WsServerState.stop, WsServerState.stop_inner]

/-- Witness for C8 at the freshly-created (stopped) server state. -/
theorem C8_stop_never_fails_witness :
    stop_ws_server WsServerState.new = (Except.ok (), WsServerState.new, []) :=
  (C8_stop_never_fails WsServerState.new).2 rfl rfl rfl

/-- C2: In any acceptor iteration where a TCP connection arrives while
the has-peer flag is true, the stream is dropped, no handshake is
attempted, the loop continues, and the acceptor state (flag and slot
view) is unchanged. -/
theorem C2_reject_second_connection (st : AcceptorState) (hs : Option WsSink)
    (h : st.has_peer = true) :
    acceptorStep st (AcceptorEvent.accepted hs) =
      (st, [AcceptorAction.dropStream], true) ∧
    AcceptorAction.handshakeAttempt ∉
      (acceptorStep st (AcceptorEvent.accepted hs)).2.1 := by
  simp [acceptorStep, h]

/-- Witness for C2 at a concrete busy acceptor state. -/
theorem C2_reject_second_connection_witness :
    acceptorStep { has_peer := true, sink := some ⟨5, none⟩ }
        (AcceptorEvent.accepted (some ⟨9, none⟩)) =
      ({ has_peer := true, sink := some ⟨5, none⟩ },
       [AcceptorAction.dropStream], true) :=
  (C2_reject_second_connection { has_peer := true, sink := some ⟨5, none⟩ }
    (some ⟨9, none⟩) rfl).1

/-- The reader loop body never emits the close notification; only the
cleanup does. -/
theorem readerLoop_close_not_mem :
    ∀ frames, HostEvent.wsClose ∉ readerLoop frames
  | [] => by simp [readerLoop]
  | f :: rest => by
      have ih := readerLoop_close_not_mem rest
      cases f <;> simp [readerLoop, readerFrameStep, ih]

/-- C3 counterexample: the claim says the cleanup clears the Connection
Slot only if it still references this connection's write half; the code
clears it unconditionally. At cleanup for the connection with write-half
id 0 while the slot holds write half 1, the code empties the slot but
the claimed behavior keeps it. -/
theorem C3_cleanup_counterexample :
    (readerCleanup 0 true (some ⟨1, none⟩)).2.1 = none ∧
    (readerCleanupClaim 0 true (some ⟨1, none⟩)).2.1 = some ⟨1, none⟩ ∧
    readerCleanup 0 true (some ⟨1, none⟩) ≠
      readerCleanupClaim 0 true (some ⟨1, none⟩) := by
  refine ⟨rfl, rfl, ?_⟩
  simp [readerCleanup, readerCleanupClaim]

/-- C3 (amended): when the reader loop terminates, for any reason and
whatever the slot holds, the cleanup clears the has-peer flag, clears
the Connection Slot unconditionally, and emits the connection-closed
notification; it runs exactly once per reader run (exactly one ws-close
event, placed after all message events). -/
theorem C3_reader_cleanup (myId : Nat) (frames : List Frame)
    (hasPeer : Bool) (slot : Option WsSink) :
    readerRun myId frames hasPeer slot =
      (readerLoop frames ++ [HostEvent.wsClose], false, none) ∧
    (readerRun myId frames hasPeer slot).1.count HostEvent.wsClose = 1 := by
  refine ⟨rfl, ?_⟩
  have h := readerLoop_close_not_mem frames
  simp [readerRun, readerCleanup, List.count_eq_zero.mpr h]

/-- C4: `send` with an occupied slot writes one binary frame through the
stored write half and returns `Ok` exactly when the transport write
succeeds (surfacing `send failed: {e}` otherwise); with an empty slot it
returns the `no peer connected` error and performs no write; in every
case the server state is unchanged. -/
theorem C4_send (st : WsServerState) (data : List Nat) :
    (∀ s, st.sink = some s →
      st.send data =
        (match s.sendErr with
         | none => Except.ok ()
         | some e => Except.error ("send failed: " ++ e),
         st, [Action.writeBinary s.id data])) ∧
    (st.sink = none →
      st.send data = (Except.error "no peer connected", st, [])) := by
  constructor
  · intro s hs
    simp [WsServerState.send, hs]
  · intro h
    simp [WsServerState.send, h]

/-- Witness for C4: a successful send through a stored write half, and
the no-peer error on the fresh state. -/
theorem C4_send_witness :
    WsServerState.send ⟨some ⟨0, none⟩, none, none⟩ [1, 2] =
      (Except.ok (), ⟨some ⟨0, none⟩, none, none⟩,
       [Action.writeBinary 0 [1, 2]]) ∧
    WsServerState.send WsServerState.new [] =
      (Except.error "no peer connected", WsServerState.new, []) :=
  ⟨(C4_send ⟨some ⟨0, none⟩, none, none⟩ [1, 2]).1 ⟨0, none⟩ rfl,
   (C4_send WsServerState.new []).2 rfl⟩

/-- C5: per inbound frame, a binary or text payload of at most
`MAX_MESSAGE_SIZE` bytes is forwarded as exactly one message event
carrying the base64-encoded payload and the loop continues; an oversized
one is silently dropped and the loop continues; a close frame or read
error ends the loop; any other frame kind is ignored. -/
theorem C5_reader_frame_policy (f : Frame) :
    (∀ data, f = Frame.binary data ∨ f = Frame.text data →
      (data.length ≤ MAX_MESSAGE_SIZE →
        readerFrameStep f = ([HostEvent.wsMessage (b64encode data)], true)) ∧
      (data.length > MAX_MESSAGE_SIZE →
        readerFrameStep f = ([], true))) ∧
    ((f = Frame.close ∨ f = Frame.readError) →
      readerFrameStep f = ([], false)) ∧
    (f = Frame.other → readerFrameStep f = ([], true)) := by
  refine ⟨?_, ?_, ?_⟩
  · rintro data (rfl | rfl) <;>
      exact ⟨fun h => by simp [readerFrameStep, Nat.not_lt.mpr h],
             fun h => by simp [readerFrameStep, h]⟩
  · rintro (rfl | rfl) <;> rfl
  · rintro rfl; rfl

/-- Witness for C5: the one-byte binary frame `[7]` is forwarded as a
single message event carrying its base64 encoding `Bw==`. -/
theorem C5_reader_frame_policy_witness :
    readerFrameStep (Frame.binary [7]) =
      ([HostEvent.wsMessage [66, 119, 61, 61]], true) :=
  ((C5_reader_frame_policy (Frame.binary [7])).1 [7] (Or.inl rfl)).1
    (by decide)

/-- Alphabet inversion: decoding the encoding of any sextet value
recovers it. -/
theorem b64CharDec_b64Char : ∀ v, v < 64 → b64CharDec (b64Char v) = some v := by
  decide

/-- The encoding of a sextet value is never the pad character 61. -/
theorem b64Char_ne_pad : ∀ v, v < 64 → b64Char v ≠ 61 := by
  decide

/-- Standard base64 round-trips byte-exactly on every byte sequence. -/
theorem b64decode_b64encode :
    ∀ bs : List Nat, (∀ b ∈ bs, b < 256) →
      b64decode (b64encode bs) = some bs
  | [], _ => rfl
  | [b0], h => by
      have hb0 : b0 < 256 := h b0 (by simp)
      have h0 : b0 / 4 < 64 := by omega
      have h1 : b0 % 4 * 16 < 64 := by omega
      simp [b64encode, b64decode, b64CharDec_b64Char _ h0,
        b64CharDec_b64Char _ h1]
      omega
  | [b0, b1], h => by
      have hb0 : b0 < 256 := h b0 (by simp)
      have hb1 : b1 < 256 := h b1 (by simp)
      have h0 : b0 / 4 < 64 := by omega
      have h1 : b0 % 4 * 16 + b1 / 16 < 64 := by omega
      have h2 : b1 % 16 * 4 < 64 := by omega
      simp [b64encode, b64decode, b64CharDec_b64Char _ h0,
        b64CharDec_b64Char _ h1, b64CharDec_b64Char _ h2,
        b64Char_ne_pad _ h2]
      omega
  | b0 :: b1 :: b2 :: rest, h => by
      have hb0 : b0 < 256 := h b0 (by simp)
      have hb1 : b1 < 256 := h b1 (by simp)
      have hb2 : b2 < 256 := h b2 (by simp)
      have ih := b64decode_b64encode rest (fun b hb => h b (by simp [hb]))
      have h0 : b0 / 4 < 64 := by omega
      have h1 : b0 % 4 * 16 + b1 / 16 < 64 := by omega
      have h2 : b1 % 16 * 4 + b2 / 64 < 64 := by omega
      have h3 : b2 % 64 < 64 := by omega
      simp [b64encode, b64decode, b64CharDec_b64Char _ h0,
        b64CharDec_b64Char _ h1, b64CharDec_b64Char _ h2,
        b64CharDec_b64Char _ h3, b64Char_ne_pad _ h2, b64Char_ne_pad _ h3,
        ih]
      omega

/-- C9: the transport encoding round-trips byte-exactly: for every byte
sequence of at most `MAX_MESSAGE_SIZE` bytes, the base64 encoding the
reader applies before emitting, composed with the base64 decoding
`ws_send` applies, is the identity; consequently `ws_send` of an encoded
payload performs exactly the core `send` of the original bytes. -/
theorem C9_transport_roundtrip (bs : List Nat)
    (hlen : bs.length ≤ MAX_MESSAGE_SIZE) (hbytes : ∀ b ∈ bs, b < 256) :
    b64decode (b64encode bs) = some bs ∧
    ∀ st, ws_send st (b64encode bs) = st.send bs := by
  have h := b64decode_b64encode bs hbytes
  exact ⟨h, fun st => by simp [ws_send, h]⟩

/-- Witness for C9 at the three-byte sequence `[0, 255, 16]`. -/
theorem C9_transport_roundtrip_witness :
    b64decode (b64encode [0, 255, 16]) = some [0, 255, 16] ∧
    ws_send WsServerState.new (b64encode [0, 255, 16]) =
      WsServerState.new.send [0, 255, 16] :=
  ⟨(C9_transport_roundtrip [0, 255, 16] (by decide) (by decide)).1,
   (C9_transport_roundtrip [0, 255, 16] (by decide) (by decide)).2
     WsServerState.new⟩

/-- Evaluating a concatenation of digit lists: the second list continues
from the first list's accumulated value. -/
theorem digitsVal_append (l1 l2 : List Nat) :
    ∀ acc, digitsVal (l1 ++ l2) acc = digitsVal l2 (digitsVal l1 acc) := by
  induction l1 with
  | nil => intro acc; rfl
  | cons d rest ih => intro acc; simp [digitsVal, ih]

/-- Every entry produced by `natDigitsRevAux` is a decimal digit. -/
theorem natDigitsRevAux_lt_ten :
    ∀ fuel n, ∀ d ∈ natDigitsRevAux fuel n, d < 10 := by
  intro fuel
  induction fuel with
  | zero => intro n d hd; simp [natDigitsRevAux] at hd
  | succ fuel ih =>
      intro n d hd
      by_cases hn : n = 0
      · simp [natDigitsRevAux, hn] at hd
      · simp [natDigitsRevAux, hn] at hd
        rcases hd with hd | hd
        · omega
        · exact ih _ d hd

/-- Reading back the reversed digit list recovers the number (given
enough fuel). -/
theorem digitsVal_natDigitsRevAux :
    ∀ fuel n acc, n ≤ fuel →
      digitsVal (natDigitsRevAux fuel n).reverse acc =
        acc * 10 ^ (natDigitsRevAux fuel n).length + n := by
  intro fuel
  induction fuel with
  | zero =>
      intro n acc hn
      have : n = 0 := by omega
      simp [natDigitsRevAux, this, digitsVal]
  | succ fuel ih =>
      intro n acc hn
      by_cases hn0 : n = 0
      · simp [natDigitsRevAux, hn0, digitsVal]
      · have hdiv : n / 10 ≤ fuel := by omega
        have := ih (n / 10) acc hdiv
        simp only [natDigitsRevAux, hn0, if_false, List.reverse_cons,
          digitsVal_append, this, List.length_cons, digitsVal]
        rw [pow_succ]
        have : n / 10 * 10 + n % 10 = n := by omega
        ring_nf
        omega

/-- Every character of the decimal representation is an ASCII digit. -/
theorem natAscii_digits (n : Nat) : ∀ c ∈ natAscii n, 48 ≤ c ∧ c ≤ 57 := by
  intro c hc
  by_cases hn : n = 0
  · simp [natAscii, hn] at hc
    omega
  · simp [natAscii, hn] at hc
    obtain ⟨d, hd, rfl⟩ := hc
    have := natDigitsRevAux_lt_ten n n d hd
    omega

/-- The decimal representation is never empty. -/
theorem natAscii_ne_nil (n : Nat) : natAscii n ≠ [] := by
  by_cases hn : n = 0
  · simp [natAscii, hn]
  · have : natDigitsRevAux n n ≠ [] := by
      cases n with
      | zero => exact absurd rfl hn
      | succ m => simp [natDigitsRevAux]
    simp [natAscii, hn, natDigitsRev, this]

/-- Parsing back the ASCII decimal representation recovers the number. -/
theorem digitsVal_natAscii (n : Nat) :
    digitsVal ((natAscii n).map (fun c => c - 48)) 0 = n := by
  by_cases hn : n = 0
  · simp [natAscii, hn, digitsVal]
  · have hmap : ((natDigitsRev n).reverse.map (fun d => 48 + d)).map
        (fun c => c - 48) = (natDigitsRev n).reverse := by
      rw [List.map_map]
      have : ((fun c => c - 48) ∘ fun d => 48 + d) = id := by
        funext d; simp
      rw [this, List.map_id]
    simp only [natAscii, if_neg hn]
    rw [hmap]
    simp only [natDigitsRev]
    rw [digitsVal_natDigitsRevAux n n 0 (le_refl n)]
    omega

/-- `takeDigits` consumes an all-digit input whole. -/
theorem takeDigits_all :
    ∀ l : List Nat, (∀ c ∈ l, 48 ≤ c ∧ c ≤ 57) → takeDigits l = (l, []) := by
  intro l
  induction l with
  | nil => intro _; rfl
  | cons c rest ih =>
      intro h
      have hc := h c (by simp)
      have hrest := ih (fun x hx => h x (by simp [hx]))
      simp [takeDigits, hc, hrest]

/-- The formatted address `0.0.0.0:{port}` parses back to the wildcard
address and the same port, for every 16-bit port. -/
theorem parse_formatAddr (port : Nat) (hport : port < 65536) :
    parseSocketAddrV4 (formatAddr port) = some ((0, 0, 0, 0), port) := by
  have hd := natAscii_digits port
  have hne := natAscii_ne_nil port
  have hval := digitsVal_natAscii port
  have ht := takeDigits_all (natAscii port) hd
  have hle : port ≤ 65535 := by omega
  simp [parseSocketAddrV4, formatAddr, parseOctet, expectChar, parsePort,
    takeDigits, digitsVal, ht, hne, hval, hle]

/-- C10: for every 16-bit port, `format!("0.0.0.0:{}", port)` parses
successfully as a socket address (yielding the wildcard IPv4 address and
the same port), so the `invalid address` branch of `bind_with_retry` is
never taken for any input reachable from `start`: the call always
proceeds to the retry loop. -/
theorem C10_addr_always_parses (port : Nat) (h : port < 65536) :
    parseSocketAddrV4 (formatAddr port) = some ((0, 0, 0, 0), port) ∧
    ∀ tryBind max_attempts delay_ms,
      bind_with_retry tryBind port max_attempts delay_ms =
        bindLoop tryBind delay_ms "" 0 max_attempts := by
  have hp := parse_formatAddr port h
  exact ⟨hp, fun tb ma d => by simp [bind_with_retry, hp]⟩

/-- Witness for C10 at the largest port, 65535. -/
theorem C10_addr_always_parses_witness :
    parseSocketAddrV4 (formatAddr 65535) = some ((0, 0, 0, 0), 65535) :=
  (C10_addr_always_parses 65535 (by decide)).1

/-- `countAttempts` adds over concatenation. -/
theorem countAttempts_append (l1 l2 : List BindEvent) :
    countAttempts (l1 ++ l2) = countAttempts l1 + countAttempts l2 := by
  induction l1 with
  | nil => simp [countAttempts]
  | cons ev rest ih => cases ev <;> simp [countAttempts, ih] <;> omega

/-- One-step unfolding of the retry loop when the current attempt
succeeds. -/
theorem bindLoop_succ_ok (tryBind : Nat → Except String Nat)
    (delay_ms : Nat) (last_err : String) (attempt fuel l : Nat)
    (hok : tryBind attempt = Except.ok l) :
    bindLoop tryBind delay_ms last_err attempt (fuel + 1) =
      (Except.ok l,
       (if attempt > 0 then [BindEvent.sleep delay_ms] else []) ++
       [BindEvent.bindAttempt attempt]) := by
  simp [bindLoop, hok]

/-- One-step unfolding of the retry loop when the current attempt
fails. -/
theorem bindLoop_succ_error (tryBind : Nat → Except String Nat)
    (delay_ms : Nat) (last_err : String) (attempt fuel : Nat) (e : String)
    (he : tryBind attempt = Except.error e) :
    bindLoop tryBind delay_ms last_err attempt (fuel + 1) =
      ((bindLoop tryBind delay_ms e (attempt + 1) fuel).1,
       (if attempt > 0 then [BindEvent.sleep delay_ms] else []) ++
       [BindEvent.bindAttempt attempt] ++
       (bindLoop tryBind delay_ms e (attempt + 1) fuel).2) := by
  rcases hb : bindLoop tryBind delay_ms e (attempt + 1) fuel with ⟨r, evs⟩
  simp [bindLoop, he, hb]

/-- The retry loop performs at most `fuel` bind attempts. -/
theorem bindLoop_attempts_le (tryBind : Nat → Except String Nat)
    (delay_ms : Nat) :
    ∀ fuel attempt last_err,
      countAttempts (bindLoop tryBind delay_ms last_err attempt fuel).2 ≤
        fuel := by
  intro fuel
  induction fuel with
  | zero => intro attempt last_err; simp [bindLoop, countAttempts]
  | succ fuel ih =>
      intro attempt last_err
      cases h : tryBind attempt with
      | ok l =>
          rw [bindLoop_succ_ok tryBind delay_ms last_err attempt fuel l h]
          simp only [countAttempts_append]
          split <;> simp [countAttempts]
      | error e =>
          rw [bindLoop_succ_error tryBind delay_ms last_err attempt fuel e h]
          have := ih (attempt + 1) e
          simp only [countAttempts_append]
          split <;> simp [countAttempts] <;> omega

/-- If the first success among the attempts tried is at relative index
`k`, the loop stops there with that listener, having produced exactly
the attempts up to `k` with their interleaved sleeps. -/
theorem bindLoop_first_success (tryBind : Nat → Except String Nat)
    (delay_ms : Nat) :
    ∀ k fuel attempt last_err l, k < fuel →
      (∀ j, j < k → ∃ e, tryBind (attempt + j) = Except.error e) →
      tryBind (attempt + k) = Except.ok l →
      bindLoop tryBind delay_ms last_err attempt fuel =
        (Except.ok l, bindTraceFrom delay_ms attempt (k + 1)) := by
  intro k
  induction k with
  | zero =>
      intro fuel attempt last_err l hk hfail hok
      cases fuel with
      | zero => omega
      | succ fuel =>
          rw [Nat.add_zero] at hok
          rw [bindLoop_succ_ok tryBind delay_ms last_err attempt fuel l hok]
          simp [bindTraceFrom]
  | succ k ih =>
      intro fuel attempt last_err l hk hfail hok
      cases fuel with
      | zero => omega
      | succ fuel =>
          obtain ⟨e, he⟩ := hfail 0 (by omega)
          rw [Nat.add_zero] at he
          have hfail2 : ∀ j, j < k → ∃ e2,
              tryBind (attempt + 1 + j) = Except.error e2 := by
            intro j hj
            have := hfail (j + 1) (by omega)
            have harith : attempt + (j + 1) = attempt + 1 + j := by omega
            rwa [harith] at this
          have hok2 : tryBind (attempt + 1 + k) = Except.ok l := by
            have harith : attempt + (k + 1) = attempt + 1 + k := by omega
            rwa [harith] at hok
          have hrec := ih fuel (attempt + 1) e l (by omega) hfail2 hok2
          rw [bindLoop_succ_error tryBind delay_ms last_err attempt fuel e he,
            hrec]
          simp [bindTraceFrom]

/-- If every attempt fails, the loop returns the last attempt's error,
having produced all `fuel` attempts with their interleaved sleeps. -/
theorem bindLoop_all_fail (tryBind : Nat → Except String Nat)
    (delay_ms : Nat) :
    ∀ fuel attempt last_err e, 0 < fuel →
      (∀ j, j < fuel → ∃ e2, tryBind (attempt + j) = Except.error e2) →
      tryBind (attempt + fuel - 1) = Except.error e →
      bindLoop tryBind delay_ms last_err attempt fuel =
        (Except.error e, bindTraceFrom delay_ms attempt fuel) := by
  intro fuel
  induction fuel with
  | zero => intro attempt last_err e h0; omega
  | succ fuel ih =>
      intro attempt last_err e h0 hfail hlast
      obtain ⟨e0, he0⟩ := hfail 0 (by omega)
      rw [Nat.add_zero] at he0
      cases fuel with
      | zero =>
          have harith : attempt + 1 - 1 = attempt := by omega
          rw [harith] at hlast
          rw [bindLoop_succ_error tryBind delay_ms last_err attempt 0 e hlast]
          simp [bindLoop, bindTraceFrom]
      | succ fuel2 =>
          have hfail2 : ∀ j, j < fuel2 + 1 → ∃ e2,
              tryBind (attempt + 1 + j) = Except.error e2 := by
            intro j hj
            have := hfail (j + 1) (by omega)
            have harith : attempt + (j + 1) = attempt + 1 + j := by omega
            rwa [harith] at this
          have hlast2 : tryBind (attempt + 1 + (fuel2 + 1) - 1) =
              Except.error e := by
            have harith : attempt + (fuel2 + 1 + 1) - 1 =
                attempt + 1 + (fuel2 + 1) - 1 := by omega
            rwa [harith] at hlast
          have hrec := ih (attempt + 1) e0 e (by omega) hfail2 hlast2
          rw [bindLoop_succ_error tryBind delay_ms last_err attempt
            (fuel2 + 1) e0 he0, hrec]
          simp [bindTraceFrom]

/-- C6: `bind_with_retry(port, max_attempts, delay)` makes at most
`max_attempts` bind attempts; when the first success is at attempt `k`
it returns that listener, and when every attempt fails it returns the
final attempt's error verbatim — in both cases having slept exactly
once, for `delay` ms, between consecutive attempts and never before the
first (the trace is `bindTraceFrom`); and `start` invokes it with the
defaults of 5 attempts at 200 ms spacing. -/
theorem C6_bind_with_retry (tryBind : Nat → Except String Nat)
    (port max_attempts delay_ms : Nat) (hport : port < 65536) :
    (countAttempts (bind_with_retry tryBind port max_attempts delay_ms).2 ≤
      max_attempts) ∧
    (∀ k l, k < max_attempts →
      (∀ j, j < k → ∃ e, tryBind j = Except.error e) →
      tryBind k = Except.ok l →
      bind_with_retry tryBind port max_attempts delay_ms =
        (Except.ok l, bindTraceFrom delay_ms 0 (k + 1))) ∧
    (∀ e, 0 < max_attempts →
      (∀ j, j < max_attempts → ∃ e2, tryBind j = Except.error e2) →
      tryBind (max_attempts - 1) = Except.error e →
      bind_with_retry tryBind port max_attempts delay_ms =
        (Except.error e, bindTraceFrom delay_ms 0 max_attempts)) ∧
    (∀ st : WsServerState, ∀ o : StartOracle,
      (st.start o port).2.2.2 = (bind_with_retry o.tryBind port 5 200).2) := by
  have hp := parse_formatAddr port hport
  have hrw : bind_with_retry tryBind port max_attempts delay_ms =
      bindLoop tryBind delay_ms "" 0 max_attempts := by
    simp [bind_with_retry, hp]
  refine ⟨?_, ?_, ?_, ?_⟩
  · rw [hrw]; exact bindLoop_attempts_le tryBind delay_ms max_attempts 0 ""
  · intro k l hk hfail hok
    rw [hrw]
    exact bindLoop_first_success tryBind delay_ms k max_attempts 0 "" l hk
      (by simpa using hfail) (by simpa using hok)
  · intro e h0 hfail hlast
    rw [hrw]
    exact bindLoop_all_fail tryBind delay_ms max_attempts 0 "" e h0
      (by simpa using hfail) (by simpa using hlast)
  · intro st o
    unfold WsServerState.start
    cases hb : (bind_with_retry o.tryBind port 5 200).1 with
    | error e => simp [hb]
    | ok l =>
        cases hla : o.localAddrPort with
        | error e => simp [hb, hla]
        | ok lport =>
            cases hli : o.localIp with
            | error e => simp [hb, hla, hli]
            | ok ip => simp [hb, hla, hli]

/-- Witness for C6: with the first attempt failing and the second
succeeding (5 attempts, 200 ms), the loop returns the second attempt's
listener after attempt 0, one 200 ms sleep, and attempt 1. -/
theorem C6_bind_with_retry_witness :
    bind_with_retry
        (fun i => if i = 0 then Except.error "failed to bind: busy"
                  else Except.ok 7) 8080 5 200 =
      (Except.ok 7,
       [BindEvent.bindAttempt 0, BindEvent.sleep 200,
        BindEvent.bindAttempt 1]) :=
  (C6_bind_with_retry
      (fun i => if i = 0 then Except.error "failed to bind: busy"
                else Except.ok 7) 8080 5 200 (by decide)).2.1 1 7
    (by decide)
    (fun j hj => by
      interval_cases j
      exact ⟨"failed to bind: busy", rfl⟩)
    rfl

/-- C7: when `start` returns an error, the pre-emptive retirement has
already run and nothing was stored afterwards: the returned state has
all three slots empty (the stopped state). -/
theorem C7_failed_start_is_stopped (st : WsServerState) (o : StartOracle)
    (port : Nat) (e : String)
    (h : (st.start o port).1 = Except.error e) :
    (st.start o port).2.1 = WsServerState.new := by
  have hstop : st.stop_inner.1 = WsServerState.new := rfl
  unfold WsServerState.start at h ⊢
  cases hb : (bind_with_retry o.tryBind port 5 200).1 with
  | error e2 => simp [hb, hstop]
  | ok l =>
      cases hla : o.localAddrPort with
      | error e2 => simp [hb, hla, hstop]
      | ok lport =>
          cases hli : o.localIp with
          | error e2 => simp [hb, hla, hli, hstop]
          | ok ip => rw [hb, hla, hli] at h; simp at h

/-- Witness for C7: a start whose every bind attempt fails returns the
bind error and the stopped state. -/
theorem C7_failed_start_is_stopped_witness :
    (WsServerState.start WsServerState.new
        ⟨fun _ => Except.error "failed to bind: in use", Except.ok 1234,
         Except.ok "10.0.0.2", 3, 4⟩ 8080).2.1 = WsServerState.new :=
  C7_failed_start_is_stopped WsServerState.new
    ⟨fun _ => Except.error "failed to bind: in use", Except.ok 1234,
     Except.ok "10.0.0.2", 3, 4⟩ 8080 "failed to bind: in use" (by rfl)

end ShareGo
